import Mathlib

set_option maxRecDepth 100000

/-!
Verification of the credential and session authentication subsystem of the
url_shortener service against its specification.

Rust strings are modeled as their UTF-8 byte sequences (`List Nat`, each
element `< 256`); all operations of the verified core (splitting on ASCII
delimiters, byte iteration, hashing, base64 and hex encoding) are byte-level
in the source as well, so this embedding is exact.  Machine integers are
modeled as `Nat`/`Int` with explicit reduction modulo `2 ^ 32` / `2 ^ 64`
where the source wraps.
-/

namespace UrlShortener

/-! ## Byte-string utilities -/

/-- UTF-8 validity of a byte sequence, as checked by Rust's
`String::from_utf8` (rejects overlong forms, surrogates and code points
above U+10FFFF). -/
def utf8Valid : List Nat → Bool
  | [] => true
  | c :: rest =>
    if c < 128 then utf8Valid rest
    else if c < 194 then false
    else if c < 224 then
      match rest with
      | c1 :: r => (128 ≤ c1 && c1 ≤ 191) && utf8Valid r
      | _ => false
    else if c < 240 then
      match rest with
      | c1 :: c2 :: r =>
        (if c = 224 then 160 ≤ c1 && c1 ≤ 191
         else if c = 237 then 128 ≤ c1 && c1 ≤ 159
         else 128 ≤ c1 && c1 ≤ 191) &&
        (128 ≤ c2 && c2 ≤ 191) && utf8Valid r
      | _ => false
    else if c < 245 then
      match rest with
      | c1 :: c2 :: c3 :: r =>
        (if c = 240 then 144 ≤ c1 && c1 ≤ 191
         else if c = 244 then 128 ≤ c1 && c1 ≤ 143
         else 128 ≤ c1 && c1 ≤ 191) &&
        (128 ≤ c2 && c2 ≤ 191) && (128 ≤ c3 && c3 ≤ 191) && utf8Valid r
      | _ => false
    else false

/-- Rust `char::from(byte)` followed by re-encoding the char into UTF-8 when
the containing `String` is hashed: bytes below 128 stay themselves, bytes
128–255 become the two-byte UTF-8 form of U+0080..U+00FF. -/
def latin1ToUtf8 (c : Nat) : List Nat :=
  if c < 128 then [c] else [192 + c / 64, 128 + c % 64]

/-! ## Hex encoding (the `hex` crate's `hex::encode`) -/

/-- Lower-case hex digit of a value below 16, as a byte. -/
def hexDigit (d : Nat) : Nat := if d < 10 then 48 + d else 87 + d

/-- `hex::encode`: each byte becomes two lower-case hex digit bytes. -/
def hexEncode : List Nat → List Nat
  | [] => []
  | b :: rest => hexDigit (b / 16) :: hexDigit (b % 16) :: hexEncode rest

/-! ## Base64, standard alphabet, no padding
(the `base64` crate's `STANDARD_NO_PAD` engine) -/

/-- Standard base64 alphabet as bytes: A–Z, a–z, 0–9, `+`, `/`. -/
def b64Alphabet : List Nat :=
  [65, 66, 67, 68, 69, 70, 71, 72, 73, 74, 75, 76, 77, 78, 79, 80,
   81, 82, 83, 84, 85, 86, 87, 88, 89, 90,
   97, 98, 99, 100, 101, 102, 103, 104, 105, 106, 107, 108, 109, 110,
   111, 112, 113, 114, 115, 116, 117, 118, 119, 120, 121, 122,
   48, 49, 50, 51, 52, 53, 54, 55, 56, 57, 43, 47]

/-- Byte of the base64 alphabet at a 6-bit index. -/
def b64Char (i : Nat) : Nat := b64Alphabet.getD i 65

/-- `STANDARD_NO_PAD.encode` on bytes. -/
def b64Encode : List Nat → List Nat
  | [] => []
  | [a] => [b64Char (a / 4), b64Char (a % 4 * 16)]
  | [a, b] => [b64Char (a / 4), b64Char (a % 4 * 16 + b / 16), b64Char (b % 16 * 4)]
  | a :: b :: c :: rest =>
    b64Char (a / 4) :: b64Char (a % 4 * 16 + b / 16) ::
    b64Char (b % 16 * 4 + c / 64) :: b64Char (c % 64) :: b64Encode rest

/-- Value of a base64 alphabet byte, `none` for a byte outside the
alphabet. -/
def b64CharVal (c : Nat) : Option Nat :=
  if 65 ≤ c ∧ c ≤ 90 then some (c - 65)
  else if 97 ≤ c ∧ c ≤ 122 then some (c - 71)
  else if 48 ≤ c ∧ c ≤ 57 then some (c + 4)
  else if c = 43 then some 62
  else if c = 47 then some 63
  else none

/-- Map every byte to its alphabet value, failing on the first invalid one. -/
def b64Values : List Nat → Option (List Nat)
  | [] => some []
  | c :: rest =>
    match b64CharVal c, b64Values rest with
    | some v, some vs => some (v :: vs)
    | _, _ => none

/-- Reassemble 6-bit values into bytes; a trailing group of one value is
rejected, and non-zero trailing bits are rejected, as the unpadded engine
does. -/
def b64Assemble : List Nat → Option (List Nat)
  | [] => some []
  | [_] => none
  | [a, b] => if b % 16 = 0 then some [a * 4 + b / 16] else none
  | [a, b, c] =>
    if c % 4 = 0 then some [a * 4 + b / 16, b % 16 * 16 + c / 4] else none
  | a :: b :: c :: d :: rest =>
    match b64Assemble rest with
    | some r => some ((a * 4 + b / 16) :: (b % 16 * 16 + c / 4) :: (c % 4 * 64 + d) :: r)
    | none => none

/-- `STANDARD_NO_PAD.decode` on bytes: `none` models a decode error. -/
def b64Decode (l : List Nat) : Option (List Nat) :=
  match b64Values l with
  | some vs => b64Assemble vs
  | none => none

/-! ## SHA-256 (the `sha2` crate) -/

def kTbl256 : List Nat :=
  [1116352408, 1899447441, 3049323471, 3921009573,
   961987163, 1508970993, 2453635748, 2870763221,
   3624381080, 310598401, 607225278, 1426881987,
   1925078388, 2162078206, 2614888103, 3248222580,
   3835390401, 4022224774, 264347078, 604807628,
   770255983, 1249150122, 1555081692, 1996064986,
   2554220882, 2821834349, 2952996808, 3210313671,
   3336571891, 3584528711, 113926993, 338241895,
   666307205, 773529912, 1294757372, 1396182291,
   1695183700, 1986661051, 2177026350, 2456956037,
   2730485921, 2820302411, 3259730800, 3345764771,
   3516065817, 3600352804, 4094571909, 275423344,
   430227734, 506948616, 659060556, 883997877,
   958139571, 1322822218, 1537002063, 1747873779,
   1955562222, 2024104815, 2227730452, 2361852424,
   2428436474, 2756734187, 3204031479, 3329325298]

/-- Eight-word hash state (all values below the word modulus). -/
structure Hash8 where
  a : Nat
  b : Nat
  c : Nat
  d : Nat
  e : Nat
  f : Nat
  g : Nat
  h : Nat

def hInit256 : Hash8 :=
  ⟨1779033703, 3144134277, 1013904242, 2773480762,
   1359893119, 2600822924, 528734635, 1541459225⟩

/-- Reduce to a 32-bit word. -/
def w32 (n : Nat) : Nat := n % 4294967296

/-- 32-bit right rotation of a value below `2 ^ 32`. -/
def rotr32 (n x : Nat) : Nat := w32 ((x >>> n) ||| (x <<< (32 - n)))

/-- Big-endian bytes of a 32-bit word. -/
def be32 (w : Nat) : List Nat :=
  [w / 16777216 % 256, w / 65536 % 256, w / 256 % 256, w % 256]

/-- Big-endian 8-byte encoding of a length in bits. -/
def be64 (n : Nat) : List Nat :=
  [n / 72057594037927936 % 256, n / 281474976710656 % 256,
   n / 1099511627776 % 256, n / 4294967296 % 256,
   n / 16777216 % 256, n / 65536 % 256, n / 256 % 256, n % 256]

/-- SHA-256 padding: append `0x80`, zeros to 56 mod 64, then the 64-bit
big-endian bit length. -/
def pad256 (msg : List Nat) : List Nat :=
  msg ++ 128 :: List.replicate ((119 - msg.length % 64) % 64) 0 ++
    be64 (8 * msg.length)

/-- Group bytes into 32-bit big-endian words. -/
def toW32s : List Nat → List Nat
  | a :: b :: c :: d :: rest =>
    (a * 16777216 + b * 65536 + c * 256 + d) :: toW32s rest
  | _ => []

/-- Extend the 16 block words to the 64-entry message schedule. -/
def sched256 : Nat → List Nat → List Nat
  | 0, w => w
  | fuel + 1, w =>
    let t := w.length
    let x15 := w.getD (t - 15) 0
    let x2 := w.getD (t - 2) 0
    let s0 := rotr32 7 x15 ^^^ rotr32 18 x15 ^^^ (x15 >>> 3)
    let s1 := rotr32 17 x2 ^^^ rotr32 19 x2 ^^^ (x2 >>> 10)
    sched256 fuel (w ++ [w32 (w.getD (t - 16) 0 + s0 + w.getD (t - 7) 0 + s1)])

/-- One SHA-256 round. -/
def round256 (k w : Nat) (st : Hash8) : Hash8 :=
  let s1 := rotr32 6 st.e ^^^ rotr32 11 st.e ^^^ rotr32 25 st.e
  let ch := st.e &&& st.f ^^^ (4294967295 ^^^ st.e) &&& st.g
  let t1 := w32 (st.h + s1 + ch + k + w)
  let s0 := rotr32 2 st.a ^^^ rotr32 13 st.a ^^^ rotr32 22 st.a
  let mj := st.a &&& st.b ^^^ st.a &&& st.c ^^^ st.b &&& st.c
  let t2 := w32 (s0 + mj)
  ⟨w32 (t1 + t2), st.a, st.b, st.c, w32 (st.d + t1), st.e, st.f, st.g⟩

/-- Run the rounds over paired constant and schedule word lists. -/
def rounds8 (rf : Nat → Nat → Hash8 → Hash8) : List Nat → List Nat → Hash8 → Hash8
  | k :: ks, w :: ws, st => rounds8 rf ks ws (rf k w st)
  | _, _, st => st

/-- Pointwise modular sum of two hash states. -/
def addState (m : Nat) (x y : Hash8) : Hash8 :=
  ⟨(x.a + y.a) % m, (x.b + y.b) % m, (x.c + y.c) % m, (x.d + y.d) % m,
   (x.e + y.e) % m, (x.f + y.f) % m, (x.g + y.g) % m, (x.h + y.h) % m⟩

/-- SHA-256 compression of one 64-byte block. -/
def compress256 (block : List Nat) (st : Hash8) : Hash8 :=
  let ws := sched256 48 (toW32s block)
  addState 4294967296 st (rounds8 round256 kTbl256 ws st)

/-- Fold the compression over consecutive 64-byte blocks (fuel-driven so the
definition reduces in the kernel). -/
def blocks256 : Nat → List Nat → Hash8 → Hash8
  | 0, _, st => st
  | fuel + 1, msg, st =>
    match msg with
    | [] => st
    | _ => blocks256 fuel (msg.drop 64) (compress256 (msg.take 64) st)

/-- Big-endian byte dump of the final state, four bytes per word. -/
def digestBytes32 (st : Hash8) : List Nat :=
  be32 st.a ++ be32 st.b ++ be32 st.c ++ be32 st.d ++
  be32 st.e ++ be32 st.f ++ be32 st.g ++ be32 st.h

/-- SHA-256 digest of a byte sequence. -/
def sha256 (msg : List Nat) : List Nat :=
  let p := pad256 msg
  digestBytes32 (blocks256 (p.length / 64) p hInit256)

/-- HMAC-SHA-256 (the `hmac` crate with a SHA-256 core): 64-byte block. -/
def hmacSha256 (key msg : List Nat) : List Nat :=
  let k0 := if 64 < key.length then sha256 key else key
  let kp := k0 ++ List.replicate (64 - k0.length) 0
  sha256 (kp.map (· ^^^ 92) ++ sha256 (kp.map (· ^^^ 54) ++ msg))

/-! ## SHA-512 (the `sha2` crate), used by the password hasher -/

def kTbl512 : List Nat :=
  [4794697086780616226, 8158064640168781261, 13096744586834688815,
   16840607885511220156, 4131703408338449720, 6480981068601479193,
   10538285296894168987, 12329834152419229976, 15566598209576043074,
   1334009975649890238, 2608012711638119052, 6128411473006802146,
   8268148722764581231, 9286055187155687089, 11230858885718282805,
   13951009754708518548, 16472876342353939154, 17275323862435702243,
   1135362057144423861, 2597628984639134821, 3308224258029322869,
   5365058923640841347, 6679025012923562964, 8573033837759648693,
   10970295158949994411, 12119686244451234320, 12683024718118986047,
   13788192230050041572, 14330467153632333762, 15395433587784984357,
   489312712824947311, 1452737877330783856, 2861767655752347644,
   3322285676063803686, 5560940570517711597, 5996557281743188959,
   7280758554555802590, 8532644243296465576, 9350256976987008742,
   10552545826968843579, 11727347734174303076, 12113106623233404929,
   14000437183269869457, 14369950271660146224, 15101387698204529176,
   15463397548674623760, 17586052441742319658, 1182934255886127544,
   1847814050463011016, 2177327727835720531, 2830643537854262169,
   3796741975233480872, 4115178125766777443, 5681478168544905931,
   6601373596472566643, 7507060721942968483, 8399075790359081724,
   8693463985226723168, 9568029438360202098, 10144078919501101548,
   10430055236837252648, 11840083180663258601, 13761210420658862357,
   14299343276471374635, 14566680578165727644, 15097957966210449927,
   16922976911328602910, 17689382322260857208, 500013540394364858,
   748580250866718886, 1242879168328830382, 1977374033974150939,
   2944078676154940804, 3659926193048069267, 4368137639120453308,
   4836135668995329356, 5532061633213252278, 6448918945643986474,
   6902733635092675308, 7801388544844847127]

def hInit512 : Hash8 :=
  ⟨7640891576956012808, 13503953896175478587,
   4354685564936845355, 11912009170470909681,
   5840696475078001361, 11170449401992604703,
   2270897969802886507, 6620516959819538809⟩

/-- Reduce to a 64-bit word. -/
def w64 (n : Nat) : Nat := n % 18446744073709551616

/-- 64-bit right rotation of a value below `2 ^ 64`. -/
def rotr64 (n x : Nat) : Nat := w64 ((x >>> n) ||| (x <<< (64 - n)))

/-- Big-endian bytes of a 64-bit word. -/
def be64w (w : Nat) : List Nat :=
  [w / 72057594037927936 % 256, w / 281474976710656 % 256,
   w / 1099511627776 % 256, w / 4294967296 % 256,
   w / 16777216 % 256, w / 65536 % 256, w / 256 % 256, w % 256]

/-- SHA-512 padding: append `0x80`, zeros to 112 mod 128, then the 128-bit
big-endian bit length (the high 8 bytes are zero for any feasible input). -/
def pad512 (msg : List Nat) : List Nat :=
  msg ++ 128 :: List.replicate ((239 - msg.length % 128) % 128) 0 ++
    (List.replicate 8 0 ++ be64w (w64 (8 * msg.length)))

/-- Group bytes into 64-bit big-endian words. -/
def toW64s : List Nat → List Nat
  | a :: b :: c :: d :: e :: f :: g :: h :: rest =>
    (((((((a * 256 + b) * 256 + c) * 256 + d) * 256 + e) * 256 + f) * 256 + g)
      * 256 + h) :: toW64s rest
  | _ => []

/-- Extend the 16 block words to the 80-entry message schedule. -/
def sched512 : Nat → List Nat → List Nat
  | 0, w => w
  | fuel + 1, w =>
    let t := w.length
    let x15 := w.getD (t - 15) 0
    let x2 := w.getD (t - 2) 0
    let s0 := rotr64 1 x15 ^^^ rotr64 8 x15 ^^^ (x15 >>> 7)
    let s1 := rotr64 19 x2 ^^^ rotr64 61 x2 ^^^ (x2 >>> 6)
    sched512 fuel (w ++ [w64 (w.getD (t - 16) 0 + s0 + w.getD (t - 7) 0 + s1)])

/-- One SHA-512 round. -/
def round512 (k w : Nat) (st : Hash8) : Hash8 :=
  let s1 := rotr64 14 st.e ^^^ rotr64 18 st.e ^^^ rotr64 41 st.e
  let ch := st.e &&& st.f ^^^ (18446744073709551615 ^^^ st.e) &&& st.g
  let t1 := w64 (st.h + s1 + ch + k + w)
  let s0 := rotr64 28 st.a ^^^ rotr64 34 st.a ^^^ rotr64 39 st.a
  let mj := st.a &&& st.b ^^^ st.a &&& st.c ^^^ st.b &&& st.c
  let t2 := w64 (s0 + mj)
  ⟨w64 (t1 + t2), st.a, st.b, st.c, w64 (st.d + t1), st.e, st.f, st.g⟩

/-- SHA-512 compression of one 128-byte block. -/
def compress512 (block : List Nat) (st : Hash8) : Hash8 :=
  let ws := sched512 64 (toW64s block)
  addState 18446744073709551616 st (rounds8 round512 kTbl512 ws st)

/-- Fold the compression over consecutive 128-byte blocks. -/
def blocks512 : Nat → List Nat → Hash8 → Hash8
  | 0, _, st => st
  | fuel + 1, msg, st =>
    match msg with
    | [] => st
    | _ => blocks512 fuel (msg.drop 128) (compress512 (msg.take 128) st)

/-- Big-endian byte dump of the final state, eight bytes per word. -/
def digestBytes64 (st : Hash8) : List Nat :=
  be64w st.a ++ be64w st.b ++ be64w st.c ++ be64w st.d ++
  be64w st.e ++ be64w st.f ++ be64w st.g ++ be64w st.h

/-- SHA-512 digest of a byte sequence. -/
def sha512 (msg : List Nat) : List Nat :=
  let p := pad512 msg
  digestBytes64 (blocks512 (p.length / 128) p hInit512)

/-! ## `str::split_terminator` on an ASCII delimiter -/

/-- Plain split on a delimiter byte (Rust `str::split`): always returns at
least one (possibly empty) segment. -/
def splitByte (sep : Nat) : List Nat → List (List Nat)
  | [] => [[]]
  | b :: rest =>
    let r := splitByte sep rest
    if b = sep then [] :: r
    else
      match r with
      | h :: t => (b :: h) :: t
      | [] => [[b]]

/-- Rust `str::split_terminator`: like `split`, but a single trailing empty
segment is dropped (so the empty string yields no segments). -/
def splitTerminator (sep : Nat) (l : List Nat) : List (List Nat) :=
  let parts := splitByte sep l
  if parts.getLast? = some [] then parts.dropLast else parts

/-! ## Decimal display of integers (Rust `Display` for `i64`/`u64`) -/

/-- Decimal digit bytes of a natural number, most significant first
(fuel-driven so the definition reduces in the kernel; the fuel is always
sufficient at its call site). -/
def decDigits : Nat → Nat → List Nat
  | 0, _ => []
  | fuel + 1, n =>
    if n < 10 then [48 + n] else decDigits fuel (n / 10) ++ [48 + n % 10]

/-- Decimal byte string of a natural number. -/
def natDecimal (n : Nat) : List Nat := decDigits (n + 1) n

/-- Decimal byte string of an integer, with a leading `-` when negative. -/
def intDecimal (i : Int) : List Nat :=
  if i < 0 then 45 :: natDecimal (-i).toNat else natDecimal i.toNat

/-! ## Token model (`src/user/jwt.rs`) -/

/-- The closed enumeration of signature algorithm tags (`enum SigAlgo`). -/
inductive SigAlgo where
  | HS256 | HS384 | HS512
  | RS256 | RS384 | RS512
  | ES256 | ES384 | ES512
  | PS256 | PS384 | PS512
deriving DecidableEq, Repr

/-- `SigAlgo::as_str` / its `Display` impl, as bytes. -/
def SigAlgo.asStr : SigAlgo → List Nat
  | .HS256 => [72, 83, 50, 53, 54]
  | .HS384 => [72, 83, 51, 56, 52]
  | .HS512 => [72, 83, 53, 49, 50]
  | .RS256 => [82, 83, 50, 53, 54]
  | .RS384 => [82, 83, 51, 56, 52]
  | .RS512 => [82, 83, 53, 49, 50]
  | .ES256 => [69, 83, 50, 53, 54]
  | .ES384 => [69, 83, 51, 56, 52]
  | .ES512 => [69, 83, 53, 49, 50]
  | .PS256 => [80, 83, 50, 53, 54]
  | .PS384 => [80, 83, 51, 56, 52]
  | .PS512 => [80, 83, 53, 49, 50]

/-- `enum JwtError` (the `SerdeError` message is carried as bytes). -/
inductive JwtError where
  | ParsingError
  | IncorrectLength
  | SerdeError (msg : List Nat)
  | IncorrectSignature
deriving DecidableEq, Repr

/-- `struct JwtHeader { alg, r#type }`. -/
structure JwtHeader where
  alg : SigAlgo
  type : List Nat
deriving DecidableEq, Repr

/-- `JwtHeader::defaults()`: HS256 with type `"JWT"`. -/
def JwtHeader.defaults : JwtHeader := ⟨.HS256, [74, 87, 84]⟩

/-- `struct JwtPayload { sub: i64, name: String, email: String, iat: u64 }`. -/
structure JwtPayload where
  sub : Int
  name : List Nat
  email : List Nat
  iat : Nat
deriving DecidableEq, Repr

/-- `struct Jwt { header, payload, signature: Option<String> }`. -/
structure Jwt where
  header : JwtHeader
  payload : JwtPayload
  signature : Option (List Nat)
deriving DecidableEq, Repr

/-- `Jwt::new`: an unsealed token, signature `None`. -/
def Jwt.new (head : JwtHeader) (payload : JwtPayload) : Jwt :=
  ⟨head, payload, none⟩

/-- The `Display` impl for `JwtHeader`:
the bytes of the string `{"alg":"<alg>","typ":"<type>"}` (note the struct
field is `r#type` but the serialized key is `typ`). -/
def JwtHeader.display (h : JwtHeader) : List Nat :=
  [123, 34, 97, 108, 103, 34, 58, 34] ++ h.alg.asStr ++
  [34, 44, 34, 116, 121, 112, 34, 58, 34] ++ h.type ++ [34, 125]

/-- The `Display` impl for `JwtPayload`: the bytes of
`{"sub":"<sub>","name":"<name>","email":"<email>","iat":<iat>}` (the `sub`
integer is serialized inside quotes, `iat` bare). -/
def JwtPayload.display (p : JwtPayload) : List Nat :=
  [123, 34, 115, 117, 98, 34, 58, 34] ++ intDecimal p.sub ++
  [34, 44, 34, 110, 97, 109, 101, 34, 58, 34] ++ p.name ++
  [34, 44, 34, 101, 109, 97, 105, 108, 34, 58, 34] ++ p.email ++
  [34, 44, 34, 105, 97, 116, 34, 58] ++ natDecimal p.iat ++ [125]

/-- `Jwt::finalize_hs256`: base64-encode the header and payload display
strings, join with `.`, HMAC-SHA-256 the joined bytes with the secret, and
append the hex of the MAC as the third `.`-separated segment. -/
def Jwt.finalizeHs256 (j : Jwt) (secret : List Nat) : List Nat :=
  let header64 := b64Encode j.header.display
  let payload64 := b64Encode j.payload.display
  let partialToken := header64 ++ 46 :: payload64
  let signature := hexEncode (hmacSha256 secret partialToken)
  partialToken ++ 46 :: signature

/-- `Jwt::finalize`: HS256 dispatches to `finalize_hs256`; every other
algorithm logs an error and returns the empty string. -/
def Jwt.finalize (j : Jwt) (secret : List Nat) : List Nat :=
  match j.header.alg with
  | .HS256 => j.finalizeHs256 secret
  | _ => []

/-- `Jwt::verify`: compare the stored signature (empty if `None`) with the
last `.`-segment of a fresh `finalize`; `None` from `split_terminator` is a
`ParsingError`. -/
def Jwt.verify (j : Jwt) (secret : List Nat) : Except JwtError Bool :=
  let selfSig := j.signature.getD []
  let finalized := j.finalize secret
  match (splitTerminator 46 finalized).getLast? with
  | none => .error .ParsingError
  | some computedSig => .ok (selfSig == computedSig)

/-- Sealing a token the way the repository's own test does: set the
signature to the last `.`-segment of `finalize`. -/
def Jwt.sealWith (j : Jwt) (secret : List Nat) : Jwt :=
  { j with signature := (splitTerminator 46 (j.finalize secret)).getLast? }

/-- `Jwt::from_str_secret`.  The two serde-json deserializers (for
`JwtHeader` from the decoded header bytes, and for `JwtPayload` from the
decoded payload bytes) live in the external `serde_json` crate, so they are
taken as parameters; an `Except` error models `serde_json::Error` whose
message the code wraps in `JwtError::SerdeError`.  The outer `Option` models
panics: `none` is the panic of the two `unwrap()` calls on the header
segment.  Faithfully to the code, the recomputed MAC is taken over
`"{<segment0>}.{<segment1>}"` — the format string's escaped braces are
included — and its raw bytes are kept as the "recomputed signature" string
(`String::from_utf8`, a `ParsingError` when not valid UTF-8). -/
def Jwt.fromStrSecret
    (headerDe : List Nat → Except (List Nat) JwtHeader)
    (payloadDe : List Nat → Except (List Nat) JwtPayload)
    (token secret : List Nat) : Option (Except JwtError (Jwt × List Nat)) :=
  let parts := splitTerminator 46 token
  if parts.length ≠ 3 then some (.error .IncorrectLength)
  else
    let macInput := 123 :: parts.getD 0 [] ++ [125, 46, 123] ++
      parts.getD 1 [] ++ [125]
    let testHash := hmacSha256 secret macInput
    if ¬ utf8Valid testHash then some (.error .ParsingError)
    else
      match b64Decode (parts.getD 0 []) with
      | none => none
      | some headerBytes =>
        if ¬ utf8Valid headerBytes then none
        else
          match headerDe headerBytes with
          | .error e => some (.error (.SerdeError e))
          | .ok header =>
            match b64Decode (parts.getD 1 []) with
            | none => some (.error .ParsingError)
            | some payloadBytes =>
              match payloadDe payloadBytes with
              | .error e => some (.error (.SerdeError e))
              | .ok payload =>
                some (.ok (⟨header, payload, some (parts.getD 2 [])⟩, testHash))

/-! ## Credential records and password hashing (`src/db.rs`, `src/user.rs`) -/

/-- `struct UserRow { id: i64, username, hashed_pw, email }`. -/
structure UserRow where
  id : Int
  username : List Nat
  hashedPw : List Nat
  email : List Nat
deriving DecidableEq, Repr

/-- `hash_salted_password`: hex-encoded SHA-512 of the input bytes. -/
def hashSaltedPassword (password : List Nat) : List Nat :=
  hexEncode (sha512 password)

/-- `salt_password`: the code draws a fresh 15-character alphanumeric salt
from a CSPRNG; the salt is a parameter here.  Returns
`(salt ++ password, salt)`. -/
def saltPassword (salt password : List Nat) : List Nat × List Nat :=
  (salt ++ password, salt)

/-- `hash_unsalted_password`: hash the salted password and store
`salt # hexdigest`. -/
def hashUnsaltedPassword (salt password : List Nat) : List Nat :=
  let salted := (saltPassword salt password).1
  (saltPassword salt password).2 ++ 35 :: hashSaltedPassword salted

/-- The salt-scanning loop at the top of `verify_pw`: walk the stored bytes
pushing each non-`#` byte (as a char) into the salt buffer; on the first
`#` at index `i` record `delimiter_index = i + 1` and stop.  If no `#`
occurs, every byte is pushed and `delimiter_index` stays `0`. -/
def scanSalt : List Nat → Nat → List Nat × Nat
  | [], _ => ([], 0)
  | b :: rest, i =>
    if b = 35 then ([], i + 1)
    else
      let r := scanSalt rest (i + 1)
      (b :: r.1, r.2)

/-- Expansion of the scanned salt chars back to bytes when the built
`String` is hashed (`char::from(byte)` re-encodes bytes ≥ 128 as two-byte
UTF-8). -/
def expandLatin1 : List Nat → List Nat
  | [] => []
  | c :: rest => latin1ToUtf8 c ++ expandLatin1 rest

/-- `verify_pw`: rebuild `salt ++ password`, hash it like
`hash_salted_password`, and compare with the stored bytes after
`delimiter_index` (Rust `split_at(delimiter_index).1`). -/
def verifyPw (password : List Nat) (user : UserRow) : Bool :=
  let scan := scanSalt user.hashedPw 0
  let saltedPassword := expandLatin1 scan.1 ++ password
  let hashedPw := hashSaltedPassword saltedPassword
  let storedHash := user.hashedPw.drop scan.2
  hashedPw == storedHash

/-! ## Session manager (`src/main.rs`) -/

/-- The observable outcome of `attempt_login`, restricted to what the
function can return: a 500 on lookup failure, a 401 on password mismatch,
and a temporary redirect carrying the session cookie on success. -/
inductive LoginResponse where
  | internalServerError
  | unauthorized
  | redirectWithCookie (cookie : List Nat)
deriving DecidableEq, Repr

/-- Modelled from the spec: `lookup_identity_by_name(name) ->
CredentialRecord | NotFound`.  The function `user::retrieve_user_by_name`
called by `attempt_login` is not present under `src/` (only
`retrieve_user_by_id` is); the spec describes it as a lookup-by-name
returning a credential record or NotFound, modeled here over an explicit
list of rows standing for the relational store. -/
def retrieveUserByName (db : List UserRow) (name : List Nat) : Option UserRow :=
  db.find? (fun u => u.username == name)

/-- `SESSION_TIME`: two hours, in seconds. -/
def sessionTime : Nat := 60 * 60 * 2

/-- `expiration_time()`: the current unix time (a parameter here, the code
reads the system clock) plus `SESSION_TIME`. -/
def expirationTime (rightNow : Nat) : Nat := rightNow + sessionTime

/-- `attempt_login` (`src/main.rs`): on lookup failure return 500
INTERNAL_SERVER_ERROR; on `verify_pw` failure return 401 UNAUTHORIZED; on
success build the claims, encode the token (the `jsonwebtoken::encode` call
is in an external crate, taken as the `encodeToken` parameter) and answer a
temporary redirect with the `__Host-jwt` cookie. -/
def attemptLogin (encodeToken : JwtPayload → List Nat) (rightNow : Nat)
    (db : List UserRow) (username password : List Nat) : LoginResponse :=
  match retrieveUserByName db username with
  | none => .internalServerError
  | some user =>
    if verifyPw password user then
      let claims : JwtPayload :=
        ⟨user.id, user.username, user.email, expirationTime rightNow⟩
      .redirectWithCookie
        ([95, 95, 72, 111, 115, 116, 45, 106, 119, 116, 61] ++
          encodeToken claims ++ [59, 32, 83, 101, 99, 117, 114, 101])
    else .unauthorized

instance {ε α : Type} [DecidableEq ε] [DecidableEq α] :
    DecidableEq (Except ε α) := fun x y => by
  cases x <;> cases y
  case error.error a b => exact decidable_of_iff (a = b) (by simp)
  case error.ok a b => exact isFalse (by simp)
  case ok.error a b => exact isFalse (by simp)
  case ok.ok a b => exact decidable_of_iff (a = b) (by simp)

/-- Value of a decimal digit byte string (left fold), used to invert the
decimal display. -/
def decVal (l : List Nat) : Nat := l.foldl (fun a d => 10 * a + (d - 48)) 0

/-- Alphanumeric bytes (the `Alphanumeric` distribution the salt generator
samples from). -/
def isAlnumByte (b : Nat) : Prop :=
  (48 ≤ b ∧ b ≤ 57) ∨ (65 ≤ b ∧ b ≤ 90) ∨ (97 ≤ b ∧ b ≤ 122)

instance (b : Nat) : Decidable (isAlnumByte b) := by
  unfold isAlnumByte
  infer_instance

/-- The success outcome the round-trip property promises is absent: either
`from_str_secret` did not return a parsed token, or the signature it
recomputed differs from the transmitted third segment. -/
def roundTripFails (r : Option (Except JwtError (Jwt × List Nat)))
    (third : List Nat) : Prop :=
  match r with
  | some (.ok (_, testHash)) => testHash ≠ third
  | _ => True

/-! ## Supporting lemmas -/

theorem hexDigit_gt_46 (d : Nat) : 46 < hexDigit d := by
  unfold hexDigit; split <;> omega

theorem hexEncode_length (l : List Nat) :
    (hexEncode l).length = 2 * l.length := by
  induction l with
  | nil => rfl
  | cons b rest ih => simp [hexEncode, ih]; omega

theorem hexEncode_mem_gt_46 (l : List Nat) (x : Nat)
    (hx : x ∈ hexEncode l) : 46 < x := by
  induction l with
  | nil => simp [hexEncode] at hx
  | cons b rest ih =>
    simp only [hexEncode, List.mem_cons] at hx
    rcases hx with h | h | h
    · exact h ▸ hexDigit_gt_46 _
    · exact h ▸ hexDigit_gt_46 _
    · exact ih h

theorem b64Char_mem_alphabet (i : Nat) : b64Char i ∈ b64Alphabet := by
  unfold b64Char
  rcases Nat.lt_or_ge i b64Alphabet.length with h | h
  · exact List.getD_eq_getElem b64Alphabet 65 h ▸ List.getElem_mem h
  · rw [List.getD_eq_default _ _ h]; decide

theorem b64Char_ne_46 (i : Nat) : b64Char i ≠ 46 := by
  have := b64Char_mem_alphabet i
  intro h
  rw [h] at this
  exact absurd this (by decide)

theorem b64Encode_mem_ne_46 (l : List Nat) (x : Nat)
    (hx : x ∈ b64Encode l) : x ≠ 46 := by
  induction l using b64Encode.induct with
  | case1 => simp [b64Encode] at hx
  | case2 a =>
    simp only [b64Encode, List.mem_cons, List.not_mem_nil, or_false] at hx
    rcases hx with h | h <;> exact h ▸ b64Char_ne_46 _
  | case3 a b =>
    simp only [b64Encode, List.mem_cons, List.not_mem_nil, or_false] at hx
    rcases hx with h | h | h <;> exact h ▸ b64Char_ne_46 _
  | case4 a b c rest ih =>
    simp only [b64Encode, List.mem_cons] at hx
    rcases hx with h | h | h | h | h
    · exact h ▸ b64Char_ne_46 _
    · exact h ▸ b64Char_ne_46 _
    · exact h ▸ b64Char_ne_46 _
    · exact h ▸ b64Char_ne_46 _
    · exact ih h

theorem sha256_length (m : List Nat) : (sha256 m).length = 32 := by
  simp [sha256, digestBytes32, be32]

theorem sha512_length (m : List Nat) : (sha512 m).length = 64 := by
  simp [sha512, digestBytes64, be64w]

theorem hmacSha256_length (key msg : List Nat) :
    (hmacSha256 key msg).length = 32 := by
  unfold hmacSha256
  exact sha256_length _

theorem splitByte_ne_nil (sep : Nat) (l : List Nat) : splitByte sep l ≠ [] := by
  cases l with
  | nil => simp [splitByte]
  | cons b rest =>
    simp only [splitByte]
    split
    · simp
    · split
      · simp
      · simp

theorem splitByte_no_sep (sep : Nat) (l : List Nat)
    (h : ∀ x ∈ l, x ≠ sep) : splitByte sep l = [l] := by
  induction l with
  | nil => rfl
  | cons b rest ih =>
    have hb : b ≠ sep := h b (by simp)
    have hr := ih (fun x hx => h x (by simp [hx]))
    simp [splitByte, hb, hr]

theorem splitByte_append_sep (sep : Nat) (a r : List Nat)
    (h : ∀ x ∈ a, x ≠ sep) :
    splitByte sep (a ++ sep :: r) = a :: splitByte sep r := by
  induction a with
  | nil => simp [splitByte]
  | cons b rest ih =>
    have hb : b ≠ sep := h b (by simp)
    have hr := ih (fun x hx => h x (by simp [hx]))
    simp [splitByte, hb, hr]

theorem splitTerminator_three (a b c : List Nat)
    (ha : ∀ x ∈ a, x ≠ 46) (hb : ∀ x ∈ b, x ≠ 46) (hc : ∀ x ∈ c, x ≠ 46)
    (hcne : c ≠ []) :
    splitTerminator 46 (a ++ 46 :: (b ++ 46 :: c)) = [a, b, c] := by
  unfold splitTerminator
  rw [splitByte_append_sep 46 a _ ha, splitByte_append_sep 46 b _ hb,
    splitByte_no_sep 46 c hc]
  simp [hcne]

theorem expandLatin1_ascii (l : List Nat) (h : ∀ x ∈ l, x < 128) :
    expandLatin1 l = l := by
  induction l with
  | nil => rfl
  | cons b rest ih =>
    have hb : b < 128 := h b (by simp)
    have hr := ih (fun x hx => h x (by simp [hx]))
    simp [expandLatin1, latin1ToUtf8, hb, hr]

theorem scanSalt_no_delim (l : List Nat) (i : Nat)
    (h : ∀ x ∈ l, x ≠ 35) : scanSalt l i = (l, 0) := by
  induction l generalizing i with
  | nil => rfl
  | cons b rest ih =>
    have hb : b ≠ 35 := h b (by simp)
    have hr := ih (i + 1) (fun x hx => h x (by simp [hx]))
    simp [scanSalt, hb, hr]

theorem scanSalt_finds_delim (s r : List Nat) (i : Nat)
    (h : ∀ x ∈ s, x ≠ 35) :
    scanSalt (s ++ 35 :: r) i = (s, i + s.length + 1) := by
  induction s generalizing i with
  | nil => simp [scanSalt]
  | cons b rest ih =>
    have hb : b ≠ 35 := h b (by simp)
    have hr := ih (i + 1) (fun x hx => h x (by simp [hx]))
    simp [scanSalt, hb, hr]
    omega

theorem ne_of_length_ne {l m : List Nat} (h : l.length ≠ m.length) :
    l ≠ m := fun he => h (he ▸ rfl)

/-! ### Decimal display lemmas -/

theorem decVal_append_digit (l : List Nat) (d : Nat) :
    decVal (l ++ [d]) = 10 * decVal l + (d - 48) := by
  simp [decVal, List.foldl_append]

theorem decDigits_val (fuel n : Nat) (h : n < fuel) :
    decVal (decDigits fuel n) = n := by
  induction fuel generalizing n with
  | zero => omega
  | succ f ih =>
    unfold decDigits
    split
    · simp [decVal]
    · rename_i hn
      have hd : n / 10 < f := by
        have : n / 10 < n := Nat.div_lt_self (by omega) (by omega)
        omega
      rw [decVal_append_digit, ih _ hd]
      omega

theorem natDecimal_val (n : Nat) : decVal (natDecimal n) = n :=
  decDigits_val (n + 1) n (Nat.lt_succ_self n)

theorem natDecimal_inj {m n : Nat} (h : natDecimal m = natDecimal n) :
    m = n := by
  have := natDecimal_val m
  rw [h, natDecimal_val] at this
  omega

theorem decDigits_mem_digit (fuel n x : Nat) (hx : x ∈ decDigits fuel n) :
    48 ≤ x ∧ x ≤ 57 := by
  induction fuel generalizing n with
  | zero => simp [decDigits] at hx
  | succ f ih =>
    unfold decDigits at hx
    split at hx
    · simp at hx
      omega
    · rw [List.mem_append] at hx
      rcases hx with h | h
      · exact ih _ h
      · simp at h
        have := Nat.mod_lt n (y := 10) (by omega)
        omega

theorem natDecimal_mem_digit (n x : Nat) (hx : x ∈ natDecimal n) :
    48 ≤ x ∧ x ≤ 57 :=
  decDigits_mem_digit (n + 1) n x hx

theorem decDigits_ne_nil (fuel n : Nat) (h : 0 < fuel) :
    decDigits fuel n ≠ [] := by
  cases fuel with
  | zero => omega
  | succ f =>
    unfold decDigits
    split
    · simp
    · simp

theorem natDecimal_ne_nil (n : Nat) : natDecimal n ≠ [] :=
  decDigits_ne_nil (n + 1) n (Nat.succ_pos n)

theorem intDecimal_mem (i : Int) (x : Nat) (hx : x ∈ intDecimal i) :
    x = 45 ∨ (48 ≤ x ∧ x ≤ 57) := by
  unfold intDecimal at hx
  split at hx
  · rcases List.mem_cons.mp hx with h | h
    · exact Or.inl h
    · exact Or.inr (natDecimal_mem_digit _ _ h)
  · exact Or.inr (natDecimal_mem_digit _ _ hx)

theorem intDecimal_inj {i j : Int} (h : intDecimal i = intDecimal j) :
    i = j := by
  unfold intDecimal at h
  split at h <;> split at h
  · rename_i hi hj
    rw [List.cons_inj_right] at h
    have := natDecimal_inj h
    omega
  · rename_i hi hj
    exfalso
    have h45 : (45 : Nat) ∈ natDecimal j.toNat := by
      rw [← h]; simp
    have := natDecimal_mem_digit _ _ h45
    omega
  · rename_i hi hj
    exfalso
    have h45 : (45 : Nat) ∈ natDecimal i.toNat := by
      rw [h]; simp
    have := natDecimal_mem_digit _ _ h45
    omega
  · rename_i hi hj
    have := natDecimal_inj h
    omega

/-- Cancellation at a reserved delimiter: two delimiter-free chunks followed
by the delimiter can be matched off a shared list. -/
theorem append_delim_cancel (d : Nat) (a b x y : List Nat)
    (ha : ∀ u ∈ a, u ≠ d) (hb : ∀ v ∈ b, v ≠ d)
    (h : a ++ d :: x = b ++ d :: y) : a = b ∧ x = y := by
  induction a generalizing b with
  | nil =>
    cases b with
    | nil => simpa using h
    | cons v vb =>
      exfalso
      rw [List.nil_append, List.cons_append, List.cons_eq_cons] at h
      exact hb v (by simp) h.1.symm
  | cons u ua ih =>
    cases b with
    | nil =>
      exfalso
      rw [List.nil_append, List.cons_append, List.cons_eq_cons] at h
      exact ha u (by simp) h.1
    | cons v vb =>
      rw [List.cons_append, List.cons_append, List.cons_eq_cons] at h
      have := ih vb (fun u hu => ha u (by simp [hu]))
        (fun v hv => hb v (by simp [hv])) h.2
      exact ⟨by rw [h.1, this.1], this.2⟩

/-! ### Shape of a finalized HS256 token -/

theorem finalize_hs256_eq (j : Jwt) (h : j.header.alg = .HS256)
    (s : List Nat) : j.finalize s = j.finalizeHs256 s := by
  simp [Jwt.finalize, h]

theorem finalize_non_hs256_nil (j : Jwt) (h : j.header.alg ≠ .HS256)
    (s : List Nat) : j.finalize s = [] := by
  unfold Jwt.finalize
  split
  · rename_i halg
    exact absurd halg h
  · rfl

theorem hexEncode_hmac_ne_nil (s m : List Nat) :
    hexEncode (hmacSha256 s m) ≠ [] := by
  intro h
  have hl := hexEncode_length (hmacSha256 s m)
  rw [h, hmacSha256_length] at hl
  simp at hl

theorem finalize_parts (j : Jwt) (h : j.header.alg = .HS256) (s : List Nat) :
    splitTerminator 46 (j.finalize s) =
      [b64Encode j.header.display, b64Encode j.payload.display,
       hexEncode (hmacSha256 s
         (b64Encode j.header.display ++ 46 :: b64Encode j.payload.display))] := by
  rw [finalize_hs256_eq j h s]
  unfold Jwt.finalizeHs256
  rw [List.append_assoc, List.cons_append]
  exact splitTerminator_three _ _ _
    (fun x hx => b64Encode_mem_ne_46 _ x hx)
    (fun x hx => b64Encode_mem_ne_46 _ x hx)
    (fun x hx => Nat.ne_of_gt (hexEncode_mem_gt_46 _ x hx))
    (hexEncode_hmac_ne_nil s _)

/-- `Jwt::verify` on an HS256-headered token reduces to comparing the held
signature (empty when absent) with the hex HMAC of the two base64
segments. -/
theorem verify_of_hs256 (j : Jwt) (h : j.header.alg = .HS256) (s : List Nat) :
    j.verify s =
      .ok (j.signature.getD [] ==
        hexEncode (hmacSha256 s
          (b64Encode j.header.display ++ 46 :: b64Encode j.payload.display))) := by
  unfold Jwt.verify
  simp only [finalize_parts j h s]
  rfl

theorem drop_after_delim (salt hex : List Nat) :
    (salt ++ 35 :: hex).drop (0 + salt.length + 1) = hex := by
  have h1 : salt ++ 35 :: hex = (salt ++ [35]) ++ hex := by simp
  have h2 : 0 + salt.length + 1 = (salt ++ [35]).length := by simp
  rw [h1, h2]
  exact List.drop_left _ _

/-- The payload display string, regrouped around its quote delimiters. -/
theorem display_decomp (p : JwtPayload) :
    p.display =
      [123, 34, 115, 117, 98, 34, 58, 34] ++
        (intDecimal p.sub ++ 34 ::
          ([44, 34, 110, 97, 109, 101, 34, 58, 34] ++
            (p.name ++ 34 ::
              ([44, 34, 101, 109, 97, 105, 108, 34, 58, 34] ++
                (p.email ++ 34 ::
                  ([44, 34, 105, 97, 116, 34, 58] ++
                    (natDecimal p.iat ++ 125 :: []))))))) := by
  simp [JwtPayload.display, List.append_assoc]

theorem intDecimal_ne_34 (i : Int) : ∀ x ∈ intDecimal i, x ≠ 34 := by
  intro x hx
  rcases intDecimal_mem i x hx with h | h <;> omega

theorem natDecimal_ne_125 (n : Nat) : ∀ x ∈ natDecimal n, x ≠ 125 := by
  intro x hx
  have := natDecimal_mem_digit n x hx
  omega

/-! ## Claim theorems -/

/-- C2: a token whose header names any algorithm other than HS256 is never
accepted by `Jwt::verify` — for every such token and every secret, `verify`
returns `Err(ParsingError)` (finalize yields the empty string, whose
`split_terminator` iterator is empty), never `Ok(true)`. -/
theorem c2_non_hs256_never_verifies (j : Jwt) (s : List Nat)
    (h : j.header.alg ≠ .HS256) :
    j.verify s = .error .ParsingError := by
  unfold Jwt.verify
  rw [finalize_non_hs256_nil j h s]
  rfl

theorem c2_non_hs256_never_verifies_witness :
    (⟨⟨.HS384, [74, 87, 84]⟩, ⟨143, [74], [116], 0⟩, some [97]⟩ : Jwt).header.alg
        ≠ .HS256 ∧
      (⟨⟨.HS384, [74, 87, 84]⟩, ⟨143, [74], [116], 0⟩, some [97]⟩ : Jwt).verify
        [115] = .error .ParsingError :=
  ⟨by decide, c2_non_hs256_never_verifies _ [115] (by decide)⟩

/-- C8: for a header naming any algorithm other than HS256, `Jwt::finalize`
returns the empty string (after logging), not an explicit "unsupported
algorithm" error value — the behavior the specification forbids. -/
theorem c8_non_hs256_finalize_empty (j : Jwt) (s : List Nat)
    (h : j.header.alg ≠ .HS256) : j.finalize s = [] :=
  finalize_non_hs256_nil j h s

theorem c8_non_hs256_finalize_empty_witness :
    (⟨⟨.RS256, [74, 87, 84]⟩, ⟨143, [74], [116], 0⟩, none⟩ : Jwt).header.alg
        ≠ .HS256 ∧
      (⟨⟨.RS256, [74, 87, 84]⟩, ⟨143, [74], [116], 0⟩, none⟩ : Jwt).finalize
        [115] = [] :=
  ⟨by decide, c8_non_hs256_finalize_empty _ [115] (by decide)⟩

/-- C10 counterexample: an unsealed token (signature `None`) with an HS384
header makes `verify` return `Err(ParsingError)`, not `Ok(false)`, so the
claim "every unsealed token yields Ok(false)" is false as stated. -/
theorem c10_unsealed_non_hs256_not_ok_false :
    (Jwt.new ⟨.HS384, [74, 87, 84]⟩ ⟨143, [74], [116], 0⟩).verify [115]
      ≠ .ok false := by
  decide

/-- C10 (amended): for every unsealed token whose header algorithm is HS256
and every secret, `verify` does not panic and returns `Ok(false)`: the
missing signature is read as the empty string, which can never equal the
64-character hex MAC. -/
theorem c10_unsealed_hs256_verify_ok_false (ty : List Nat) (p : JwtPayload)
    (s : List Nat) :
    (Jwt.new ⟨.HS256, ty⟩ p).verify s = .ok false := by
  rw [verify_of_hs256 (Jwt.new ⟨.HS256, ty⟩ p) rfl s]
  obtain ⟨x, xs, hx⟩ :=
    List.exists_cons_of_ne_nil (hexEncode_hmac_ne_nil s
      (b64Encode (Jwt.new ⟨.HS256, ty⟩ p).header.display ++
        46 :: b64Encode (Jwt.new ⟨.HS256, ty⟩ p).payload.display))
  rw [hx]
  rfl

/-- C3: `Jwt::verify` consults no clock and enforces no expiry: a token
sealed exactly the way the repository's own test seals it verifies as
`Ok(true)` for every payload — in particular for any payload whose `iat`
lies at or before the current time.  No code path produces an
`ExpiredToken` outcome. -/
theorem c3_verify_ignores_expiry (ty : List Nat) (p : JwtPayload)
    (s : List Nat) :
    ((Jwt.new ⟨.HS256, ty⟩ p).sealWith s).verify s = .ok true := by
  rw [verify_of_hs256 ((Jwt.new ⟨.HS256, ty⟩ p).sealWith s) rfl s]
  unfold Jwt.sealWith
  rw [finalize_parts (Jwt.new ⟨.HS256, ty⟩ p) rfl s]
  simp

/-- C7: password verification round-trips through hashing: for every
plaintext and every alphanumeric salt the generator can yield, `verify_pw`
accepts the plaintext against the `hash_unsalted_password` record built
from it. -/
theorem c7_verify_accepts_derived_hash (salt pw uname mail : List Nat)
    (id : Int) (hsalt : ∀ x ∈ salt, isAlnumByte x) :
    verifyPw pw ⟨id, uname, hashUnsaltedPassword salt pw, mail⟩ = true := by
  have h35 : ∀ x ∈ salt, x ≠ 35 := by
    intro x hx
    have := hsalt x hx
    unfold isAlnumByte at this
    omega
  have h128 : ∀ x ∈ salt, x < 128 := by
    intro x hx
    have := hsalt x hx
    unfold isAlnumByte at this
    omega
  unfold verifyPw hashUnsaltedPassword saltPassword hashSaltedPassword
  simp only
  rw [scanSalt_finds_delim salt _ 0 h35]
  simp only
  rw [drop_after_delim, expandLatin1_ascii salt h128]
  simp

theorem c7_verify_accepts_derived_hash_witness :
    (∀ x ∈ [97, 98, 99, 100, 101, 102, 103, 104, 105, 106, 48, 49, 50, 51, 52],
        isAlnumByte x) ∧
      verifyPw [116, 101, 115, 116]
        ⟨1, [117],
         hashUnsaltedPassword
           [97, 98, 99, 100, 101, 102, 103, 104, 105, 106, 48, 49, 50, 51, 52]
           [116, 101, 115, 116],
         [109]⟩ = true :=
  ⟨by decide,
   c7_verify_accepts_derived_hash
     [97, 98, 99, 100, 101, 102, 103, 104, 105, 106, 48, 49, 50, 51, 52]
     [116, 101, 115, 116] [117] [109] 1 (by decide)⟩

/-- C6 counterexample: a stored hash with no `#` delimiter (here the bytes
of `"abc"`) makes `verify_pw` return plain `false` — the same observable
outcome as an ordinary password mismatch — rather than surfacing a distinct
data-corruption error (the function's return type has no error channel at
all). -/
theorem c6_no_delim_returns_plain_false :
    verifyPw [112, 119] ⟨1, [98], [97, 98, 99], [109]⟩ = false := by
  decide

/-- C6 (amended): when the stored hash contains no `#`, `verify_pw` treats
the entire stored string as the salt (`delimiter_index` stays 0) and
compares the 128-character recomputed hex digest against the whole stored
string, so it returns the plain mismatch outcome `false` whenever the
stored string does not have length 128; no distinct error is surfaced. -/
theorem c6_no_delim_false_of_length_ne (pw : List Nat) (user : UserRow)
    (hnd : ∀ x ∈ user.hashedPw, x ≠ 35)
    (hlen : user.hashedPw.length ≠ 128) :
    verifyPw pw user = false := by
  unfold verifyPw hashSaltedPassword
  simp only
  rw [scanSalt_no_delim user.hashedPw 0 hnd]
  simp only [List.drop_zero]
  rw [beq_eq_false_iff_ne]
  intro heq
  apply hlen
  rw [← heq, hexEncode_length, sha512_length]

theorem c6_no_delim_false_of_length_ne_witness :
    (∀ x ∈ ([120, 121, 122] : List Nat), x ≠ 35) ∧
      ([120, 121, 122] : List Nat).length ≠ 128 ∧
      verifyPw [113] ⟨2, [99], [120, 121, 122], [110]⟩ = false :=
  ⟨by decide, by decide,
   c6_no_delim_false_of_length_ne [113] ⟨2, [99], [120, 121, 122], [110]⟩
     (by decide) (by decide)⟩

/-- C5 counterexample: with a store holding one user `"b"` (stored hash
`"a#c"`), a login attempt for the unknown name `"a"` answers 500
INTERNAL_SERVER_ERROR while an attempt for `"b"` with a wrong password
answers 401 UNAUTHORIZED: the two failure outcomes are observably
different, refuting the claim that they are indistinguishable. -/
theorem c5_failure_outcomes_distinguishable :
    attemptLogin (fun _ => []) 0 [⟨1, [98], [97, 35, 99], [109]⟩]
        [97] [112, 119] ≠
      attemptLogin (fun _ => []) 0 [⟨1, [98], [97, 35, 99], [109]⟩]
        [98] [112, 119] := by
  decide

/-- C5 (amended): the two failure modes of `attempt_login` are
distinguishable: an unknown identity returns 500 INTERNAL_SERVER_ERROR
(the lookup error path) while a password mismatch against an existing
record returns 401 UNAUTHORIZED. -/
theorem c5_unknown_500_mismatch_401 (enc : JwtPayload → List Nat)
    (rightNow : Nat) (db : List UserRow)
    (uname1 uname2 pw1 pw2 : List Nat) (user : UserRow)
    (h1 : retrieveUserByName db uname1 = none)
    (h2 : retrieveUserByName db uname2 = some user)
    (h3 : verifyPw pw2 user = false) :
    attemptLogin enc rightNow db uname1 pw1 = .internalServerError ∧
      attemptLogin enc rightNow db uname2 pw2 = .unauthorized := by
  unfold attemptLogin
  rw [h1, h2]
  simp [h3]

theorem c5_unknown_500_mismatch_401_witness :
    retrieveUserByName [⟨1, [98], [97, 35, 99], [109]⟩] [100] = none ∧
      retrieveUserByName [⟨1, [98], [97, 35, 99], [109]⟩] [98] =
        some ⟨1, [98], [97, 35, 99], [109]⟩ ∧
      verifyPw [112] ⟨1, [98], [97, 35, 99], [109]⟩ = false ∧
      attemptLogin (fun _ => []) 5 [⟨1, [98], [97, 35, 99], [109]⟩]
        [100] [112] = .internalServerError ∧
      attemptLogin (fun _ => []) 5 [⟨1, [98], [97, 35, 99], [109]⟩]
        [98] [112] = .unauthorized := by
  have h := c5_unknown_500_mismatch_401 (fun _ => []) 5
    [⟨1, [98], [97, 35, 99], [109]⟩] [100] [98] [112] [112]
    ⟨1, [98], [97, 35, 99], [109]⟩ (by decide) (by decide) (by decide)
  exact ⟨by decide, by decide, by decide, h.1, h.2⟩

/-- C1: the round trip fails for every payload and secret.  Whenever
`from_str_secret` parses a finalized token without erroring or panicking,
the signature it recomputed (the raw 32 MAC bytes of the brace-wrapped
segment string) can never equal the transmitted third segment (the
64-character hex MAC), so the claimed success-with-matching-signature
outcome is impossible. -/
theorem c1_roundtrip_always_fails
    (hDe : List Nat → Except (List Nat) JwtHeader)
    (pDe : List Nat → Except (List Nat) JwtPayload)
    (p : JwtPayload) (s : List Nat) :
    roundTripFails
      (Jwt.fromStrSecret hDe pDe ((Jwt.new .defaults p).finalize s) s)
      ((splitTerminator 46 ((Jwt.new .defaults p).finalize s)).getD 2 []) := by
  have hfp := finalize_parts (Jwt.new .defaults p) rfl s
  have hmis : ∀ m : List Nat,
      hmacSha256 s m ≠
        hexEncode (hmacSha256 s
          (b64Encode (Jwt.new .defaults p).header.display ++
            46 :: b64Encode (Jwt.new .defaults p).payload.display)) := by
    intro m heq
    have h1 := hmacSha256_length s m
    rw [heq, hexEncode_length, hmacSha256_length] at h1
    omega
  simp only [Jwt.fromStrSecret, hfp, List.length_cons, List.length_nil,
    List.getD_cons_zero, List.getD_cons_succ]
  norm_num
  unfold roundTripFails
  split
  · rename_i tok th heq
    split at heq
    · simp at heq
    · split at heq
      · simp at heq
      · split at heq
        · simp at heq
        · split at heq
          · simp at heq
          · split at heq
            · simp at heq
            · split at heq
              · simp at heq
              · simp only [Option.some.injEq, Except.ok.injEq,
                  Prod.mk.injEq] at heq
                rw [← heq.2]
                exact hmis _
  · trivial

/-- C9 counterexample: two distinct payloads — one with a quote-laden name,
one with a quote-laden email — produce byte-identical canonical encodings,
so the encoding is not injective as claimed. -/
theorem c9_display_not_injective :
    JwtPayload.display
        ⟨1, [97, 34, 44, 34, 101, 109, 97, 105, 108, 34, 58, 34, 98],
         [99], 0⟩ =
      JwtPayload.display
        ⟨1, [97],
         [98, 34, 44, 34, 101, 109, 97, 105, 108, 34, 58, 34, 99], 0⟩ ∧
      (⟨1, [97, 34, 44, 34, 101, 109, 97, 105, 108, 34, 58, 34, 98],
        [99], 0⟩ : JwtPayload) ≠
        ⟨1, [97],
         [98, 34, 44, 34, 101, 109, 97, 105, 108, 34, 58, 34, 99], 0⟩ := by
  decide

/-- C9 (amended): the canonical payload encoding is deterministic, and on
payloads whose name and email contain no quote byte it is injective: the
encodings agree exactly when all fields agree.  (Quote-containing name or
email fields can collide, as the counterexample shows.) -/
theorem c9_display_injective_quote_free (p1 p2 : JwtPayload)
    (h1n : ∀ x ∈ p1.name, x ≠ 34) (h1e : ∀ x ∈ p1.email, x ≠ 34)
    (h2n : ∀ x ∈ p2.name, x ≠ 34) (h2e : ∀ x ∈ p2.email, x ≠ 34) :
    p1.display = p2.display ↔ p1 = p2 := by
  constructor
  · intro h
    rw [display_decomp p1, display_decomp p2] at h
    have h := List.append_cancel_left h
    obtain ⟨hsub, h⟩ := append_delim_cancel 34 _ _ _ _
      (intDecimal_ne_34 p1.sub) (intDecimal_ne_34 p2.sub) h
    have h := List.append_cancel_left h
    obtain ⟨hname, h⟩ := append_delim_cancel 34 _ _ _ _ h1n h2n h
    have h := List.append_cancel_left h
    obtain ⟨hemail, h⟩ := append_delim_cancel 34 _ _ _ _ h1e h2e h
    have h := List.append_cancel_left h
    obtain ⟨hiat, -⟩ := append_delim_cancel 125 _ _ _ _
      (natDecimal_ne_125 p1.iat) (natDecimal_ne_125 p2.iat) h
    obtain ⟨s1, n1, e1, i1⟩ := p1
    obtain ⟨s2, n2, e2, i2⟩ := p2
    simp only at hsub hname hemail hiat
    rw [JwtPayload.mk.injEq]
    exact ⟨intDecimal_inj hsub, hname, hemail, natDecimal_inj hiat⟩
  · intro h
    rw [h]

/-- C4: `from_str_secret` is not total: on the wire string `"!.a.b"` with
secret `"s210449877"` the recomputed raw MAC happens to be valid UTF-8, so
control reaches the header-segment base64 decode, whose `unwrap()` panics
on the non-base64 byte `!` — no `TokenError` is returned.  (The panic is
independent of the serde deserializers, which are never reached.) -/
theorem c4_header_decode_panics
    (hDe : List Nat → Except (List Nat) JwtHeader)
    (pDe : List Nat → Except (List Nat) JwtPayload) :
    Jwt.fromStrSecret hDe pDe [33, 46, 97, 46, 98]
      [115, 50, 49, 48, 52, 52, 57, 56, 55, 55] = none := by
  have h1 : splitTerminator 46 [33, 46, 97, 46, 98] = [[33], [97], [98]] := by
    decide
  have h2 : utf8Valid (hmacSha256 [115, 50, 49, 48, 52, 52, 57, 56, 55, 55]
      [123, 33, 125, 46, 123, 97, 125]) = true := by decide
  have h3 : b64Decode [33] = none := by decide
  simp [Jwt.fromStrSecret, h1, h2, h3]

theorem c9_display_injective_quote_free_witness :
    (∀ x ∈ ([106] : List Nat), x ≠ 34) ∧
      (∀ x ∈ ([107] : List Nat), x ≠ 34) ∧
      (JwtPayload.display ⟨7, [106], [107], 3⟩ =
          JwtPayload.display ⟨7, [106], [107], 3⟩ ↔
        (⟨7, [106], [107], 3⟩ : JwtPayload) = ⟨7, [106], [107], 3⟩) :=
  ⟨by decide, by decide,
   c9_display_injective_quote_free ⟨7, [106], [107], 3⟩ ⟨7, [106], [107], 3⟩
     (by decide) (by decide) (by decide) (by decide)⟩

end UrlShortener
